import Mathlib

/-!
# Verification of the qcsubmit dataset/deduplication core

A shallow embedding of `qcsubmit/datasets.py`:

* `Molecule` models `openforcefield.topology.Molecule` (`off.Molecule`):
  an opaque canonical-graph key, an atom ordering (`perm`, the listing of
  canonical atom ids, i.e. the information carried by the canonical mapped
  SMILES), conformers, optional dihedral-selection properties, an element
  set and a validity flag standing for the external QCSchema validation.
* `ComponentResult` state and its `add_molecule` / `filter_molecule`.
* `DsEntry` models `DatasetEntry`; a `Store` of entries addressed by `Nat`
  references models Python object identity (datasets hold references, and
  the merge algorithms mutate entry objects in place), with `Dataset`
  holding an insertion-ordered association list `index ↦ ref`, mirroring a
  Python dict.
* `addBasic`, `addOpt`, `addTors` model `BasicDataset.__add__`,
  `OptimizationDataset.__add__`, `TorsiondriveDataset.__add__`.
* `addMoleculeDS`, `filterMoleculesDS`, `nRecordsBasic`, `nRecordsTD` model
  `BasicDataset.add_molecule`, `BasicDataset.filter_molecules` and the two
  `n_records` properties.

Coordinates are opaque exact values (`Nat`); the source compares conformer
coordinates by exact equality, which this preserves.  Classes that the
repository imports from modules not present in the source tree
(`Constraints`, `remap_list`, `_clean_index`, `TorsionIndexer.update`, the
validators) are modelled from the specification and marked as such.
-/

/-- A conformer: one opaque exact coordinate per atom.  The source stores
`n_atoms × 3` float arrays and compares them with exact equality
(`old_conformer.tolist() == new_conf.tolist()`); we keep one opaque exact
value per atom, which preserves that comparison. -/
abbrev Conf := List Nat

/-- A dihedral: a 4-tuple of atom indices. -/
abbrev Tup4 := Nat × Nat × Nat × Nat

/-- Model of `openforcefield.topology.Molecule`.  `key` is the canonical
identity (`to_inchikey(fixed_hydrogens=True)` — invariant under atom
reordering); `perm` lists, for each atom position of this molecule, the
canonical atom it carries (the content of the canonical mapped SMILES), so
two molecules with the same `key` and atom count are isomorphic and their
alignment is computed from the two `perm`s; `confs` are the conformers;
`dihedrals` models the optional `properties["dihedrals"]` torsion indexer
(spec §4.2 step 1); `schemaValid` abstracts the external QCSchema
validation of `validators.check_valence_connectivity` (module not in the
source tree); `elements` is the element-symbol set of the molecule. -/
structure Molecule where
  key : Nat
  perm : List Nat
  confs : List Conf
  dihedrals : Option (List Tup4)
  schemaValid : Bool
  elements : List Nat
  deriving DecidableEq, Repr

/-- Number of atoms of a molecule. -/
def Molecule.natoms (m : Molecule) : Nat := m.perm.length

/-- `off.Molecule.are_isomorphic` / `off.Molecule.__eq__`: two molecules
are isomorphic exactly when they are the same canonical graph (same key)
with the same atom count. -/
def isoMol (a b : Molecule) : Bool :=
  decide (a.key = b.key) && decide (a.perm.length = b.perm.length)

/-- The atom-index mapping returned by
`off.Molecule.are_isomorphic(a, b, return_atom_map=True)`: position `i` of
`a` is mapped to the position of `b` carrying the same canonical atom. -/
def alignMap (a b : Molecule) : List Nat :=
  (List.range a.perm.length).map (fun i => b.perm.indexOf (a.perm.getD i 0))

/-- The conformer remap of `ComponentResult.add_molecule`
(`new_conformer[i] = conformer[mapping[i]]`). -/
def remapConfCR (mapping : List Nat) (conf : Conf) : Conf :=
  (List.range mapping.length).map (fun i => conf.getD (mapping.getD i 0) 0)

/-- The conformer remap of `off.Molecule.remap(mapping_dict, current_to_new=True)`
as used by the three `__add__` methods: the new molecule places old atom
`i` at new position `mapping[i]`, so `new_conf[mapping[i]] = conf[i]`. -/
def remapConfMol (mapping : List Nat) (conf : Conf) : Conf :=
  (List.range mapping.length).map (fun j => conf.getD (mapping.indexOf j) 0)

/-- Modelled from the spec: `utils.remap_list` (module not in the source
tree) — "Index remapping: apply a permutation to `indices` elementwise". -/
def remapList (l : List Nat) (mapping : List Nat) : List Nat :=
  l.map (fun i => mapping.getD i 0)

/-- Modelled from the spec: a `freeze` constraint of `constraints.Constraints`
(module not in the source tree): a typed constraint over an ordered
sequence of atom indices (spec §3 "Constraint"). -/
structure FreezeC where
  ftype : String
  indices : List Nat
  deriving DecidableEq, Repr

/-- Modelled from the spec: a `set` constraint: as `FreezeC` plus the
required numeric value (spec §3, "value: optional numeric (required iff
kind=Set)"). -/
structure SetC where
  stype : String
  indices : List Nat
  value : Int
  deriving DecidableEq, Repr

/-- Modelled from the spec: `constraints.Constraints` (module not in the
source tree): the ordered freeze/set collections; equality is structural
(spec §3 "Equality is structural (kind, type, indices, value)"). -/
structure Constraints where
  freeze : List FreezeC := []
  set : List SetC := []
  deriving DecidableEq, Repr

/-- Modelled from the spec: `Constraints.add_freeze_constraint` appends a
freeze constraint. -/
def Constraints.addFreeze (c : Constraints) (t : String) (idxs : List Nat) :
    Constraints :=
  { c with freeze := c.freeze ++ [⟨t, idxs⟩] }

/-- Modelled from the spec: `Constraints.add_set_constraint` appends a
set constraint. -/
def Constraints.addSet (c : Constraints) (t : String) (idxs : List Nat)
    (v : Int) : Constraints :=
  { c with set := c.set ++ [⟨t, idxs, v⟩] }

/-- Whether any constraints are present (`Constraints.has_constraints`,
modelled from the spec). -/
def Constraints.hasConstraints (c : Constraints) : Bool :=
  !c.freeze.isEmpty || !c.set.isEmpty

/-- The constraint remapping loop of `OptimizationDataset.__add__`
(lines 1345–1355): rebuild the incoming entry's constraints with every
index list pushed through the alignment, preserving order. -/
def remapConstraints (c : Constraints) (mapping : List Nat) : Constraints :=
  let c1 := c.freeze.foldl
    (fun acc f => acc.addFreeze f.ftype (remapList f.indices mapping)) {}
  c.set.foldl
    (fun acc s => acc.addSet s.stype (remapList s.indices mapping) s.value) c1

/-- Modelled from the spec: `validators.check_constraints` (module not in
the source tree) — "every constraint's indices must reference existing
atoms" (spec §3): all referenced indices are below the atom count. -/
def checkConstraints (c : Constraints) (natoms : Nat) : Bool :=
  c.freeze.all (fun f => f.indices.all (fun i => decide (i < natoms))) &&
  c.set.all (fun s => s.indices.all (fun i => decide (i < natoms)))

/-! ## ComponentResult (the deduplicator) -/

/-- First-match lookup in an insertion-ordered association list, as a
Python dict read. -/
def lookupA {κ α : Type} [DecidableEq κ] (l : List (κ × α)) (k : κ) : Option α :=
  (l.find? (fun p => decide (p.1 = k))).map (·.2)

/-- Python dict assignment `l[k] = v`: replace in place if the key exists
(keys of a Python dict are unique and keep their position), otherwise
append at the end. -/
def dictSet {κ α : Type} [DecidableEq κ] (l : List (κ × α)) (k : κ) (v : α) :
    List (κ × α) :=
  if l.any (fun p => decide (p.1 = k)) then
    l.map (fun p => if p.1 = k then (k, v) else p)
  else l ++ [(k, v)]

/-- The conformer-transfer loop of `ComponentResult.add_molecule`
(lines 209–228): append each remapped conformer unless an equal conformer
is already on the kept molecule; the comparison is exact equality and runs
against the evolving conformer list. -/
def dedupAppendConfs (cur : List Conf) (news : List Conf) : List Conf :=
  news.foldl (fun acc c => if c ∈ acc then acc else acc ++ [c]) cur

/-- `Modelled from the spec:` `TorsionIndexer.update(torsion_indexer,
reorder_mapping)` (`common_structures` is not in the source tree) — fuse
the incoming dihedral selections, remapping indices through the
permutation, "merging rather than overwriting (duplicate dihedral
selections collapse; distinct ones accumulate)" (spec §4.2 step 1). -/
def tiUpdate (cur : List Tup4) (incoming : List Tup4) (mapping : List Nat) :
    List Tup4 :=
  incoming.foldl (fun acc t =>
    let t' : Tup4 := (mapping.getD t.1 0, mapping.getD t.2.1 0,
                      mapping.getD t.2.2.1 0, mapping.getD t.2.2.2 0)
    if t' ∈ acc then acc else acc ++ [t']) cur

/-- The state of a `ComponentResult`: `_molecules` (kept) and `_filtered`
(rejected), both keyed by the canonical molecule hash. -/
structure CRState where
  molecules : List (Nat × Molecule) := []
  filtered : List (Nat × Molecule) := []
  deriving DecidableEq, Repr

/-- `ComponentResult.add_molecule` (lines 174–234).  If the canonical hash
is already kept: assert isomorphism (`none` models the bare
`assert isomorphic is True` failing), fuse dihedral properties, then
append each remapped conformer that is not already present; otherwise
insert as a new kept molecule.  The `_filtered` map is never consulted. -/
def addMoleculeCR (s : CRState) (m : Molecule) : Option CRState :=
  let h := m.key
  match lookupA s.molecules h with
  | some kept =>
    if m.perm.length = kept.perm.length then
      let mapping := alignMap m kept
      let kept1 :=
        match m.dihedrals with
        | some di =>
            { kept with dihedrals := some (tiUpdate (kept.dihedrals.getD []) di mapping) }
        | none => kept
      let kept2 :=
        { kept1 with confs := dedupAppendConfs kept1.confs (m.confs.map (remapConfCR mapping)) }
      some { s with molecules := dictSet s.molecules h kept2 }
    else none
  | none => some { s with molecules := s.molecules ++ [(h, m)] }

/-- `ComponentResult.filter_molecule` (lines 236–251): delete the hash from
the kept map (tolerating absence), then store the molecule in `_filtered`.
The guard `if molecule not in self._filtered` compares the molecule object
against the dict's string keys, so it is always true and the assignment
always runs. -/
def filterMoleculeCR (s : CRState) (m : Molecule) : CRState :=
  let h := m.key
  { molecules := s.molecules.eraseP (fun p => decide (p.1 = h)),
    filtered := dictSet s.filtered h m }

/-- `ComponentResult.n_molecules`. -/
def nMoleculesCR (s : CRState) : Nat := s.molecules.length

/-- `ComponentResult.n_conformers`. -/
def nConformersCR (s : CRState) : Nat :=
  (s.molecules.map (fun p => p.2.confs.length)).sum

/-! ## Dataset entries, the store, and datasets -/

/-- Model of a `qcelemental.models.Molecule` held in
`DatasetEntry.initial_molecules`: a geometry plus an opaque `extras`
payload.  The membership test `mapped_schema not in
current_entry.initial_molecules` compares qcelemental molecule hashes,
which cover the geometry (and symbols, equal within one entry) but not
`extras`, so membership below compares geometries. -/
structure SchemaMol where
  geometry : Conf
  extras : Nat
  deriving DecidableEq, Repr

instance : Inhabited SchemaMol := ⟨⟨[], 0⟩⟩

/-- Model of `DatasetEntry`: the index string, the molecule identity and
atom ordering carried by the canonical mapped SMILES in `attributes`
(`molKey`, `perm`), the geometry records, the optional torsion selection,
the constraints, and the element symbols of the molecule (the `symbols` of
its qcschema molecules). -/
structure DsEntry where
  index : String
  molKey : Nat
  perm : List Nat
  initial_molecules : List SchemaMol
  dihedrals : List Tup4
  constraints : Constraints
  elems : List Nat
  deriving DecidableEq, Repr

instance : Inhabited DsEntry := ⟨⟨"", 0, [], [], [], {}, []⟩⟩

/-- The object store: Python entry objects addressed by references.
Datasets hold references, and the merge algorithms share and mutate entry
objects in place, which the store makes observable. -/
abbrev Store := List DsEntry

/-- Dereference (reads outside the allocated store return a default
object; real states never do this). -/
def getE (st : Store) (r : Nat) : DsEntry := st.getD r default

/-- In-place mutation of the object behind a reference. -/
def setE (st : Store) (r : Nat) (e : DsEntry) : Store := st.set r e

/-- `DatasetEntry.off_molecule` (lines 344–358): rebuild the molecule from
the canonical mapped SMILES and attach one conformer per stored
geometry. -/
def DsEntry.offMolecule (e : DsEntry) : Molecule :=
  { key := e.molKey, perm := e.perm,
    confs := e.initial_molecules.map (·.geometry),
    dihedrals := none, schemaValid := true, elements := e.elems }

/-- Model of `FilterEntry`: the component name, opaque description and
provenance payloads, and the rejected molecules (stored as canonical
identities). -/
structure FilterEntry where
  component_name : String
  component_description : Nat
  component_provenance : Nat
  molecules : List Nat
  deriving DecidableEq, Repr

/-- Model of a dataset (`BasicDataset` and its two subclasses share this
state): the declared type tag, the element metadata, the provenance, the
insertion-ordered `dataset` mapping index → entry reference, and the
filter ledger. -/
structure Dataset where
  dataset_type : String
  elements : List Nat
  provenance : Nat
  dataset : List (String × Nat)
  filtered_molecules : List (String × FilterEntry)
  deriving DecidableEq, Repr

/-- Python dict key lookup `d.dataset[k]` as an `Option`. -/
def lookupRef (d : Dataset) (k : String) : Option Nat :=
  lookupA d.dataset k

/-- `BasicDataset.get_molecule_entry` (lines 516–536): the `index` fields
of all entries whose reconstructed molecule equals (is isomorphic to) the
search molecule, in dataset order. -/
def getMoleculeEntry (st : Store) (d : Dataset) (m : Molecule) : List String :=
  d.dataset.filterMap (fun p =>
    let e := getE st p.2
    if isoMol m e.offMolecule then some e.index else none)

/-- `set.update` on `metadata.elements`: union, keeping existing members. -/
def elemUnion (a b : List Nat) : List Nat :=
  b.foldl (fun acc x => if x ∈ acc then acc else acc ++ [x]) a

/-- `copy.deepcopy` of the entry mapping: fresh store cells holding copies
of the current values, in order. -/
def deepcopyEntries (st : Store) : List (String × Nat) → Store × List (String × Nat)
  | [] => (st, [])
  | p :: rest =>
    let st1 := st ++ [getE st p.2]
    let (st2, rest') := deepcopyEntries st1 rest
    (st2, (p.1, st.length) :: rest')

/-- `copy.deepcopy(self)` at the head of each `__add__`. -/
def deepcopyDS (st : Store) (d : Dataset) : Store × Dataset :=
  let (st', es) := deepcopyEntries st d.dataset
  (st', { d with dataset := es })

/-- Failures of the merge algorithms: `DatasetCombinationError` on a
dataset-type mismatch, and a raised `KeyError` when an index returned by
`get_molecule_entry` is not a key of the dataset. -/
inductive MergeErr
  | combinationError
  | keyError
  deriving DecidableEq, Repr

/-! ## The three merge policies -/

/-- The remapped qcschema molecules of an incoming entry: each geometry
pushed through `off.Molecule.remap` and wrapped with the target entry's
`initial_molecules[0].extras`, as in the fusion blocks of all three
`__add__` methods. -/
def mappedSchemas (e : DsEntry) (amap : List Nat) (ex : Nat) : List SchemaMol :=
  e.initial_molecules.map (fun s => ⟨remapConfMol amap s.geometry, ex⟩)

/-- The fusion loop `if mapped_schema not in current_entry.initial_molecules:
current_entry.initial_molecules.append(mapped_schema)`, run over the
remapped conformers in order against the evolving list; membership is the
qcelemental molecule-hash comparison, i.e. geometry equality within an
entry. -/
def dedupAppendSchemas (cur : List SchemaMol) (news : List SchemaMol) :
    List SchemaMol :=
  news.foldl (fun acc s =>
    if ∃ t ∈ acc, t.geometry = s.geometry then acc else acc ++ [s]) cur

/-- The shared geometry-fusion block of the three `__add__` methods: align
the incoming entry with the target, remap its conformers, and append the
ones not already present, mutating the target object in place. -/
def fuseInto (st : Store) (cr : Nat) (e : DsEntry) : Store :=
  let cur := getE st cr
  let amap := alignMap e.offMolecule cur.offMolecule
  let ex := (cur.initial_molecules.headD default).extras
  let fused := dedupAppendSchemas cur.initial_molecules (mappedSchemas e amap ex)
  setE st cr { cur with initial_molecules := fused }

/-- One step of `BasicDataset.__add__` (lines 493–513): no isomorphic match
inserts the incoming entry (the object itself, by reference) under its dict
key from `other`; otherwise the incoming geometries are fused into the
first hit of `get_molecule_entry`. -/
def basicStep (st : Store) (nd : Dataset) (p : String × Nat) :
    Store × Except MergeErr Dataset :=
  let e := getE st p.2
  match getMoleculeEntry st nd e.offMolecule with
  | [] => (st, .ok { nd with dataset := dictSet nd.dataset p.1 p.2 })
  | molId :: _ =>
    match lookupRef nd molId with
    | none => (st, .error .keyError)
    | some cr => (fuseInto st cr e, .ok nd)

/-- The per-entry loop shared by the three `__add__` methods, threading the
store and stopping on a raised error. -/
def mergeLoop
    (step : Store → Dataset → String × Nat → Store × Except MergeErr Dataset) :
    Store → Dataset → List (String × Nat) → Store × Except MergeErr Dataset
  | st, nd, [] => (st, .ok nd)
  | st, nd, p :: rest =>
    match step st nd p with
    | (st', .ok nd') => mergeLoop step st' nd' rest
    | (st', .error er) => (st', .error er)

/-- `BasicDataset.__add__` (lines 477–514): type check, deep copy of
`self`, element union, then the per-entry loop over `other.dataset.items()`. -/
def addBasic (st : Store) (self other : Dataset) :
    Store × Except MergeErr Dataset :=
  if self.dataset_type ≠ other.dataset_type then (st, .error .combinationError)
  else
    let sc := deepcopyDS st self
    let nd := { sc.2 with elements := elemUnion sc.2.elements other.elements }
    mergeLoop basicStep sc.1 nd other.dataset

/-- Decimal digits to a number, most significant first. -/
def digitsToNat (cs : List Char) : Nat :=
  cs.foldl (fun n c => n * 10 + (c.toNat - 48)) 0

/-- `Modelled from the spec:` `IndexCleaner._clean_index`
(`common_structures` is not in the source tree) — split an index into its
root and numeric tag: "original index root + a numeric suffix" (spec §4.5),
with tag 0 when no numeric suffix is attached. -/
def cleanIndex (s : String) : String × Nat :=
  let rev := s.data.reverse
  let tag := rev.takeWhile (fun c => c.isDigit)
  match rev.drop tag.length with
  | '-' :: core =>
    if tag.isEmpty then (s, 0) else (String.mk core.reverse, digitsToNat tag.reverse)
  | _ => (s, 0)

/-- The candidate scan of `OptimizationDataset.__add__` (lines 1330–1374):
walk the `get_molecule_entry` hits in order, accumulating `records` (the
geometry count of every candidate inspected), and stop at the first
candidate whose constraints equal the incoming constraints remapped
through that candidate's alignment (`.inl` carries its reference);
`.inr` carries the final `records` when no candidate matches. -/
def optScan (st : Store) (nd : Dataset) (e : DsEntry) :
    List String → Nat → Except MergeErr (Nat ⊕ Nat)
  | [], records => .ok (.inr records)
  | molId :: rest, records =>
    match lookupRef nd molId with
    | none => .error .keyError
    | some cr =>
      let cur := getE st cr
      let records' := records + cur.initial_molecules.length
      let amap := alignMap e.offMolecule cur.offMolecule
      if cur.constraints = remapConstraints e.constraints amap then .ok (.inl cr)
      else optScan st nd e rest records'

/-- One step of `OptimizationDataset.__add__` (lines 1327–1382): the loop
runs over `other.dataset.values()`, so inserts use the entry's own `index`
field; with isomorphic hits but no constraint match the incoming entry
object itself is given a disambiguated index (an in-place mutation of
`other`'s entry) and inserted under it. -/
def optStep (st : Store) (nd : Dataset) (p : String × Nat) :
    Store × Except MergeErr Dataset :=
  let e := getE st p.2
  match getMoleculeEntry st nd e.offMolecule with
  | [] => (st, .ok { nd with dataset := dictSet nd.dataset e.index p.2 })
  | molId :: rest =>
    match optScan st nd e (molId :: rest) 0 with
    | .error er => (st, .error er)
    | .ok (.inl cr) => (fuseInto st cr e, .ok nd)
    | .ok (.inr records) =>
      let ci := cleanIndex e.index
      let newIdx := ci.1 ++ "-" ++ toString (ci.2 + records)
      let st' := setE st p.2 { e with index := newIdx }
      (st', .ok { nd with dataset := dictSet nd.dataset newIdx p.2 })

/-- `OptimizationDataset.__add__` (lines 1309–1384). -/
def addOpt (st : Store) (self other : Dataset) :
    Store × Except MergeErr Dataset :=
  if self.dataset_type ≠ other.dataset_type then (st, .error .combinationError)
  else
    let sc := deepcopyDS st self
    let nd := { sc.2 with elements := elemUnion sc.2.elements other.elements }
    mergeLoop optStep sc.1 nd other.dataset

/-- The bidirectional central-bond set of a dihedral list: for each
dihedral both `(d[1], d[2])` and `(d[2], d[1])`, as the set comprehension
plus loop of `TorsiondriveDataset.__add__` (lines 1600–1605). -/
def centralBonds (dihedrals : List Tup4) : List (Nat × Nat) :=
  dihedrals.foldl (fun acc t =>
    let fwd := (t.2.1, t.2.2.1)
    let bwd := (t.2.2.1, t.2.1)
    let acc1 := if fwd ∈ acc then acc else acc ++ [fwd]
    if bwd ∈ acc1 then acc1 else acc1 ++ [bwd]) []

/-- The incoming entry's bidirectional central-bond set with each atom
pushed through the alignment (lines 1608–1611). -/
def centralBondsMapped (dihedrals : List Tup4) (amap : List Nat) :
    List (Nat × Nat) :=
  dihedrals.foldl (fun acc t =>
    let fwd := (amap.getD t.2.1 0, amap.getD t.2.2.1 0)
    let bwd := (amap.getD t.2.2.1 0, amap.getD t.2.1 0)
    let acc1 := if fwd ∈ acc then acc else acc ++ [fwd]
    if bwd ∈ acc1 then acc1 else acc1 ++ [bwd]) []

/-- The candidate scan of `TorsiondriveDataset.__add__` (lines 1593–1627):
fuse into the first candidate for which `current_dihedrals -
other_dihedrals` is empty, i.e. whose own central-bond set is a subset of
the incoming entry's remapped central-bond set. -/
def torsScan (st : Store) (nd : Dataset) (e : DsEntry) :
    List String → Except MergeErr (Option Nat)
  | [] => .ok none
  | molId :: rest =>
    match lookupRef nd molId with
    | none => .error .keyError
    | some cr =>
      let cur := getE st cr
      let amap := alignMap e.offMolecule cur.offMolecule
      let curB := centralBonds cur.dihedrals
      let othB := centralBondsMapped e.dihedrals amap
      if curB.all (fun b => decide (b ∈ othB)) then .ok (some cr)
      else torsScan st nd e rest

/-- One step of `TorsiondriveDataset.__add__` (lines 1590–1630): fuse into
the first matching candidate, or insert the incoming entry by reference
under its dict key from `other` when no candidate matches. -/
def torsStep (st : Store) (nd : Dataset) (p : String × Nat) :
    Store × Except MergeErr Dataset :=
  let e := getE st p.2
  match torsScan st nd e (getMoleculeEntry st nd e.offMolecule) with
  | .error er => (st, .error er)
  | .ok (some cr) => (fuseInto st cr e, .ok nd)
  | .ok none => (st, .ok { nd with dataset := dictSet nd.dataset p.1 p.2 })

/-- `TorsiondriveDataset.__add__` (lines 1574–1632). -/
def addTors (st : Store) (self other : Dataset) :
    Store × Except MergeErr Dataset :=
  if self.dataset_type ≠ other.dataset_type then (st, .error .combinationError)
  else
    let sc := deepcopyDS st self
    let nd := { sc.2 with elements := elemUnion sc.2.elements other.elements }
    mergeLoop torsStep sc.1 nd other.dataset

/-! ## Dataset.add_molecule, the filter ledger and the record counts -/

/-- Failures of `DatasetEntry` construction: the qcelemental
`ValidationError` raised while validating `initial_molecules`, and the
`ConstraintError` of `check_constraints`. -/
inductive EntryErr
  | validationError
  | constraintError
  deriving DecidableEq, Repr

/-- The `keywords` argument: an optional embedded constraints
sub-structure (promoted by `DatasetEntry.__init__`) plus an opaque
remainder. -/
structure Keywords where
  constraints : Option Constraints := none
  rest : Nat := 0
  deriving DecidableEq, Repr

/-- `DatasetEntry.__init__` (lines 283–342): promote constraints out of
the keywords, synthesize one conformer when the molecule has none
(`generate_conformers(n_conformers=1)`, an external capability), run the
qcschema validation of the initial molecules (abstracted by
`Molecule.schemaValid`; its failure is the `qcelemental ValidationError`
class), then `check_constraints`.  Geometries are stamped with the
entry's `extras`.  (The dihedral linearity/connectivity validation needs
bond and hybridization data from the external toolkit and is not part of
any `add_molecule` call modelled here; entries get their `dihedrals` as
data.) -/
def mkDatasetEntry (index : String) (m : Molecule) (extras : Nat)
    (kw : Keywords) : Except EntryErr DsEntry :=
  let cons := kw.constraints.getD {}
  let confs := if m.confs.isEmpty then [List.replicate m.perm.length 0] else m.confs
  if !m.schemaValid then .error .validationError
  else if !checkConstraints cons m.perm.length then .error .constraintError
  else .ok { index := index, molKey := m.key, perm := m.perm,
             initial_molecules := confs.map (fun c => ⟨c, extras⟩),
             dihedrals := [], constraints := cons, elems := m.elements }

/-- `BasicDataset.filter_molecules` (lines 645–685): extend the record of
an existing component name, otherwise create a fresh `FilterEntry`. -/
def filterMoleculesDS (d : Dataset) (mols : List Nat) (name : String)
    (desc : Nat) (prov : Nat) : Dataset :=
  if d.filtered_molecules.any (fun p => decide (p.1 = name)) then
    { d with filtered_molecules := d.filtered_molecules.map (fun p =>
        if p.1 = name then (p.1, { p.2 with molecules := p.2.molecules ++ mols })
        else p) }
  else
    { d with filtered_molecules :=
        d.filtered_molecules ++ [(name, ⟨name, desc, prov, mols⟩)] }

/-- `BasicDataset.add_molecule` (lines 687–740): construct the entry; on a
qcelemental `ValidationError` route the molecule to the
`"QCSchemaIssues"` filter record instead of raising; on success store the
entry under the index and union the first initial molecule's symbols into
the metadata elements.  Any other construction error propagates. -/
def addMoleculeDS (st : Store) (d : Dataset) (index : String) (m : Molecule)
    (extras : Nat) (kw : Keywords) : Store × Except EntryErr Dataset :=
  match mkDatasetEntry index m extras kw with
  | .ok e =>
    (st ++ [e], .ok { d with dataset := dictSet d.dataset index st.length,
                             elements := elemUnion d.elements e.elems })
  | .error .validationError =>
    (st, .ok (filterMoleculesDS d [m.key] "QCSchemaIssues" 0 d.provenance))
  | .error er => (st, .error er)

/-- The index → entry value view of a dataset. -/
def entryVals (st : Store) (d : Dataset) : List (String × DsEntry) :=
  d.dataset.map (fun p => (p.1, getE st p.2))

/-- The index → geometry-count view of a dataset. -/
def entryGeomCounts (st : Store) (d : Dataset) : List (String × Nat) :=
  d.dataset.map (fun p => (p.1, (getE st p.2).initial_molecules.length))

/-- `BasicDataset.n_records` (lines 568–583, inherited by
`OptimizationDataset`): the sum of `len(initial_molecules)` over the
current entries, recomputed from the dataset state on each access. -/
def nRecordsBasic (st : Store) (d : Dataset) : Nat :=
  (d.dataset.map (fun p => (getE st p.2).initial_molecules.length)).sum

/-- `TorsiondriveDataset.n_records` (lines 1634–1639): the number of
entries. -/
def nRecordsTD (_st : Store) (d : Dataset) : Nat := d.dataset.length

/-- The spec-side total geometry count: the number of geometries summed
over all entries of the value view. -/
def totalGeometries (st : Store) (d : Dataset) : Nat :=
  ((entryVals st d).map (fun q => q.2.initial_molecules.length)).sum

/-! ## Association-list and dedup lemmas -/

section AssocLemmas

variable {κ α : Type} [DecidableEq κ]

theorem lookupA_cons (p : κ × α) (l : List (κ × α)) (k : κ) :
    lookupA (p :: l) k = if p.1 = k then some p.2 else lookupA l k := by
  by_cases h : p.1 = k
  · simp [lookupA, List.find?, h]
  · simp [lookupA, List.find?, h]

theorem lookupA_eq_none (l : List (κ × α)) (k : κ)
    (h : ∀ p ∈ l, p.1 ≠ k) : lookupA l k = none := by
  induction l with
  | nil => rfl
  | cons p rest ih =>
    rw [lookupA_cons, if_neg (h p (List.mem_cons_self p rest))]
    exact ih (fun q hq => h q (List.mem_cons_of_mem _ hq))

theorem lookupA_append_right (l : List (κ × α)) (k : κ) (v : α)
    (h : ∀ p ∈ l, p.1 ≠ k) : lookupA (l ++ [(k, v)]) k = some v := by
  induction l with
  | nil => simp [lookupA, List.find?]
  | cons p rest ih =>
    rw [List.cons_append, lookupA_cons, if_neg (h p (List.mem_cons_self p rest))]
    exact ih (fun q hq => h q (List.mem_cons_of_mem _ hq))

theorem lookupA_map_update (l : List (κ × α)) (k : κ) (v : α)
    (h : ∃ p ∈ l, p.1 = k) :
    lookupA (l.map (fun p => if p.1 = k then (k, v) else p)) k = some v := by
  induction l with
  | nil => simp at h
  | cons p rest ih =>
    rw [List.map_cons]
    by_cases hp : p.1 = k
    · rw [if_pos hp, lookupA_cons, if_pos rfl]
    · rw [if_neg hp, lookupA_cons, if_neg hp]
      apply ih
      rcases h with ⟨q, hq, hqk⟩
      rcases List.mem_cons.mp hq with rfl | hq'
      · exact absurd hqk hp
      · exact ⟨q, hq', hqk⟩

theorem lookupA_dictSet_self (l : List (κ × α)) (k : κ) (v : α) :
    lookupA (dictSet l k v) k = some v := by
  unfold dictSet
  by_cases hany : l.any (fun p => decide (p.1 = k)) = true
  · rw [if_pos hany]
    refine lookupA_map_update l k v ?_
    simpa using hany
  · rw [if_neg hany]
    refine lookupA_append_right l k v ?_
    intro p hp hk
    exact hany (by simp only [List.any_eq_true]; exact ⟨p, hp, by simp [hk]⟩)

theorem dictSet_length_of_any (l : List (κ × α)) (k : κ) (v : α)
    (h : l.any (fun p => decide (p.1 = k)) = true) :
    (dictSet l k v).length = l.length := by
  unfold dictSet
  rw [if_pos h, List.length_map]

theorem mem_dictSet_of_ne (l : List (κ × α)) (k : κ) (v : α) {p : κ × α}
    (hp : p ∈ l) (hne : p.1 ≠ k) : p ∈ dictSet l k v := by
  unfold dictSet
  split
  · refine List.mem_map.mpr ⟨p, hp, ?_⟩
    simp [hne]
  · exact List.mem_append_left _ hp

theorem lookupA_eraseP_self (l : List (κ × α)) (k : κ)
    (hnd : (l.map Prod.fst).Nodup) :
    lookupA (l.eraseP (fun p => decide (p.1 = k))) k = none := by
  induction l with
  | nil => rfl
  | cons p rest ih =>
    rw [List.map_cons, List.nodup_cons] at hnd
    by_cases hp : p.1 = k
    · rw [List.eraseP_cons_of_pos (by simp [hp])]
      refine lookupA_eq_none rest k ?_
      intro q hq hqk
      apply hnd.1
      have hmem : q.1 ∈ List.map Prod.fst rest := List.mem_map_of_mem Prod.fst hq
      rwa [hqk, ← hp] at hmem
    · rw [List.eraseP_cons_of_neg (by simp [hp]), lookupA_cons, if_neg hp]
      exact ih hnd.2

end AssocLemmas

theorem mem_elemUnion {b a : List Nat} {x : Nat} :
    x ∈ elemUnion a b ↔ x ∈ a ∨ x ∈ b := by
  induction b generalizing a with
  | nil => simp [elemUnion]
  | cons c rest ih =>
    show x ∈ List.foldl _ _ _ ↔ _
    rw [List.foldl_cons]
    have step : x ∈ elemUnion (if c ∈ a then a else a ++ [c]) rest ↔
        x ∈ (if c ∈ a then a else a ++ [c]) ∨ x ∈ rest := ih
    rw [show List.foldl (fun acc x => if x ∈ acc then acc else acc ++ [x])
          (if c ∈ a then a else a ++ [c]) rest =
        elemUnion (if c ∈ a then a else a ++ [c]) rest from rfl, step]
    by_cases hc : c ∈ a
    · simp only [if_pos hc, List.mem_cons]
      constructor
      · rintro (h | h)
        · exact Or.inl h
        · exact Or.inr (Or.inr h)
      · rintro (h | h | h)
        · exact Or.inl h
        · exact Or.inl (h ▸ hc)
        · exact Or.inr h
    · simp only [if_neg hc, List.mem_append, List.mem_cons, List.not_mem_nil, or_false]
      constructor
      · rintro ((h | h) | h)
        · exact Or.inl h
        · exact Or.inr (Or.inl h)
        · exact Or.inr (Or.inr h)
      · rintro (h | h | h)
        · exact Or.inl (Or.inl h)
        · exact Or.inl (Or.inr h)
        · exact Or.inr h

theorem dedupAppendConfs_cons (cur : List Conf) (c : Conf) (news : List Conf) :
    dedupAppendConfs cur (c :: news) =
      dedupAppendConfs (if c ∈ cur then cur else cur ++ [c]) news := by
  unfold dedupAppendConfs
  rw [List.foldl_cons]

theorem mem_dedupAppendConfs {x : Conf} : ∀ (news cur : List Conf),
    x ∈ dedupAppendConfs cur news ↔ x ∈ cur ∨ x ∈ news
  | [], cur => by simp [dedupAppendConfs]
  | c :: news, cur => by
    rw [dedupAppendConfs_cons, mem_dedupAppendConfs news _]
    by_cases hc : c ∈ cur
    · simp only [if_pos hc, List.mem_cons]
      constructor
      · rintro (h | h)
        · exact Or.inl h
        · exact Or.inr (Or.inr h)
      · rintro (h | h | h)
        · exact Or.inl h
        · exact Or.inl (h ▸ hc)
        · exact Or.inr h
    · simp only [if_neg hc, List.mem_append, List.mem_cons, List.not_mem_nil, or_false]
      constructor
      · rintro ((h | h) | h)
        · exact Or.inl h
        · exact Or.inr (Or.inl h)
        · exact Or.inr (Or.inr h)
      · rintro (h | h | h)
        · exact Or.inl (Or.inl h)
        · exact Or.inl (Or.inr h)
        · exact Or.inr h

/-- The conformers genuinely contributed by `news` against an existing
list `cur`: those not already in `cur` nor duplicates of an earlier new
conformer, in order. -/
def genuinelyNew (cur news : List Conf) : List Conf :=
  news.foldl (fun acc c => if c ∈ cur ++ acc then acc else acc ++ [c]) []

theorem foldl_dedup_shift (news : List Conf) : ∀ (cur acc : List Conf),
    news.foldl (fun a c => if c ∈ a then a else a ++ [c]) (cur ++ acc) =
      cur ++ news.foldl (fun a c => if c ∈ cur ++ a then a else a ++ [c]) acc := by
  induction news with
  | nil => intro cur acc; simp
  | cons c news ih =>
    intro cur acc
    simp only [List.foldl_cons]
    by_cases hc : c ∈ cur ++ acc
    · rw [if_pos hc, if_pos hc, ih]
    · rw [if_neg hc, if_neg hc, List.append_assoc, ih]

theorem dedupAppendConfs_eq_append (cur news : List Conf) :
    dedupAppendConfs cur news = cur ++ genuinelyNew cur news := by
  unfold dedupAppendConfs genuinelyNew
  have h := foldl_dedup_shift news cur []
  simpa using h

theorem forall_ne_of_lookupA_eq_none {κ α : Type} [DecidableEq κ]
    (l : List (κ × α)) (k : κ) (h : lookupA l k = none) :
    ∀ p ∈ l, p.1 ≠ k := by
  induction l with
  | nil => intro p hp; exact absurd hp (List.not_mem_nil p)
  | cons q rest ih =>
    intro p hp
    rw [lookupA_cons] at h
    by_cases hq : q.1 = k
    · rw [if_pos hq] at h; exact absurd h (by simp)
    · rw [if_neg hq] at h
      rcases List.mem_cons.mp hp with rfl | hp'
      · exact hq
      · exact ih h p hp'

theorem lookupA_map_modify {κ α : Type} [DecidableEq κ]
    (l : List (κ × α)) (k : κ) (f : α → α) :
    lookupA (l.map (fun p => if p.1 = k then (p.1, f p.2) else p)) k =
      (lookupA l k).map f := by
  induction l with
  | nil => rfl
  | cons p rest ih =>
    rw [List.map_cons]
    by_cases hp : p.1 = k
    · rw [if_pos hp, lookupA_cons, if_pos hp, lookupA_cons, if_pos hp]
      rfl
    · rw [if_neg hp, lookupA_cons, if_neg hp, lookupA_cons, if_neg hp]
      exact ih

/-! ## C7: merges across different dataset types are rejected outright -/

/-- C7: for any two datasets whose declared `dataset_type` differs, each of
the three `__add__` policies raises `DatasetCombinationError` and leaves
the object store — and hence both input datasets — completely untouched:
no partial merge side effect occurs. -/
theorem combine_type_mismatch_rejected (st : Store) (a b : Dataset)
    (h : a.dataset_type ≠ b.dataset_type) :
    addBasic st a b = (st, .error .combinationError) ∧
    addOpt st a b = (st, .error .combinationError) ∧
    addTors st a b = (st, .error .combinationError) := by
  refine ⟨?_, ?_, ?_⟩
  · unfold addBasic; rw [if_pos h]
  · unfold addOpt; rw [if_pos h]
  · unfold addTors; rw [if_pos h]

/-- Witness for C7 at a concrete pair of differently-typed datasets. -/
theorem combine_type_mismatch_rejected_witness :
    addBasic [] ⟨"DataSet", [], 0, [], []⟩ ⟨"OptimizationDataset", [], 0, [], []⟩
        = ([], .error .combinationError) ∧
    addOpt [] ⟨"DataSet", [], 0, [], []⟩ ⟨"OptimizationDataset", [], 0, [], []⟩
        = ([], .error .combinationError) ∧
    addTors [] ⟨"DataSet", [], 0, [], []⟩ ⟨"OptimizationDataset", [], 0, [], []⟩
        = ([], .error .combinationError) :=
  combine_type_mismatch_rejected [] _ _ (by decide)

/-! ## C9: the record counts -/

/-- A torsiondrive entry holding two geometries, for the record-count
counterexample. -/
def tdCountEntry : DsEntry := ⟨"TD", 1, [0], [⟨[1], 0⟩, ⟨[2], 0⟩], [(0, 0, 0, 0)], {}, [6]⟩

/-- Store for the record-count counterexample. -/
def tdCountStore : Store := [tdCountEntry]

/-- A torsiondrive dataset with one entry holding two geometries. -/
def tdCountDS : Dataset := ⟨"TorsiondriveDataset", [6], 0, [("TD", 0)], []⟩

/-- C9 counterexample: `TorsiondriveDataset.n_records` is the number of
entries, not the total geometry count — on a dataset with one entry
holding two geometries it returns 1 while the summed geometry count is 2. -/
theorem nrecords_td_not_total_geoms :
    nRecordsTD tdCountStore tdCountDS = 1 ∧
    totalGeometries tdCountStore tdCountDS = 2 := ⟨rfl, rfl⟩

/-- C9 (amended): `n_records` of `BasicDataset` (inherited by
`OptimizationDataset`) equals the total geometry count summed over the
current entries, recomputed from the state; `TorsiondriveDataset.n_records`
instead equals the number of entries of the current state. -/
theorem nrecords_characterization :
    (∀ (st : Store) (d : Dataset), nRecordsBasic st d = totalGeometries st d) ∧
    (∀ (st : Store) (d : Dataset), nRecordsTD st d = (entryVals st d).length) := by
  constructor
  · intro st d
    unfold nRecordsBasic totalGeometries entryVals
    rw [List.map_map]
    rfl
  · intro st d
    unfold nRecordsTD entryVals
    rw [List.length_map]

/-! ## C1: repeated merge of the same increment -/

/-- Entry `A` of the base dataset for the repeated-merge failing input:
molecule 1 with geometry `[10]`. -/
def c1T : DsEntry := ⟨"A", 1, [0], [⟨[10], 0⟩], [], {}, [6]⟩

/-- Entry `B` of the base dataset: the same molecule with geometry `[20]`. -/
def c1T2 : DsEntry := ⟨"B", 1, [0], [⟨[20], 0⟩], [], {}, [6]⟩

/-- Increment entry `E`: the same molecule with geometry `[30]`. -/
def c1E : DsEntry := ⟨"E", 1, [0], [⟨[30], 0⟩], [], {}, [6]⟩

/-- Increment entry under index `A`: a different molecule (key 2) whose
index collides with the base dataset's key `A`. -/
def c1E2 : DsEntry := ⟨"A", 2, [0], [⟨[40], 0⟩], [], {}, [6]⟩

/-- Store of the repeated-merge failing input. -/
def c1St : Store := [c1T, c1T2, c1E, c1E2]

/-- Base dataset `d` of the failing input. -/
def c1D : Dataset := ⟨"DataSet", [6], 0, [("A", 0), ("B", 1)], []⟩

/-- Increment `inc` of the failing input. -/
def c1Inc : Dataset := ⟨"DataSet", [6], 0, [("E", 2), ("A", 3)], []⟩

/-- `d + inc`. -/
def c1Once : Store × Except MergeErr Dataset := addBasic c1St c1D c1Inc

/-- `(d + inc) + inc`. -/
def c1Twice : Store × Except MergeErr Dataset :=
  match c1Once with
  | (st1, .ok r1) => addBasic st1 r1 c1Inc
  | x => x

/-- C1 evaluated at the failing input: merging the increment once yields
per-entry geometry counts `A ↦ 1, B ↦ 1` (total 2), but merging the same
increment again yields `A ↦ 1, B ↦ 2` (total 3).  The first merge fuses
`E`'s geometry into entry `A` and then lets the colliding incoming index
`A` replace that entry, silently dropping the fused geometry, so the
second merge re-fuses it — this time into `B` — and the counts differ,
contradicting the claimed idempotence. -/
theorem repeated_basic_merge_changes_counts :
    c1Once.2.toOption.map (entryGeomCounts c1Once.1) = some [("A", 1), ("B", 1)] ∧
    c1Twice.2.toOption.map (entryGeomCounts c1Twice.1) = some [("A", 1), ("B", 2)] :=
  ⟨rfl, rfl⟩

/-! ## C2: mutation of `other` by the merge -/

/-- Existing optimisation entry with a freeze constraint. -/
def c2P : DsEntry := ⟨"P-0", 1, [0], [⟨[10], 0⟩], [], ⟨[⟨"distance", [0]⟩], []⟩, [6]⟩

/-- Incoming optimisation entry: same molecule, no constraints. -/
def c2Q : DsEntry := ⟨"Q-0", 1, [0], [⟨[20], 0⟩], [], ⟨[], []⟩, [6]⟩

/-- Store of the mutation failing input. -/
def c2St : Store := [c2P, c2Q]

/-- `self` of the mutation failing input. -/
def c2D : Dataset := ⟨"OptimizationDataset", [6], 0, [("P-0", 0)], []⟩

/-- `other` of the mutation failing input. -/
def c2Inc : Dataset := ⟨"OptimizationDataset", [6], 0, [("Q-0", 1)], []⟩

/-- C2 evaluated at the failing input: `other`'s entry object (reference 1)
has index `"Q-0"` before the merge; after `self + other` the same object
holds index `"Q-1"` — `OptimizationDataset.__add__` rewrote the incoming
entry's `index` in place on the constraint-mismatch path, mutating
`other`. -/
theorem opt_merge_mutates_other :
    (getE c2St 1).index = "Q-0" ∧
    (getE (addOpt c2St c2D c2Inc).1 1).index = "Q-1" := ⟨rfl, rfl⟩

/-! ## C5: filter then re-add in the deduplicator -/

/-- A molecule with canonical key 7 for the filter-then-add input. -/
def c5M : Molecule := ⟨7, [0], [[1]], none, true, [6]⟩

/-- A deduplicator state keeping `c5M`. -/
def c5S0 : CRState := ⟨[(7, c5M)], []⟩

/-- C5 counterexample: after `filter_molecule(m)` followed by
`add_molecule(m)`, the canonical key 7 is back in the kept map
(`add_molecule` never consults `_filtered`), contradicting the claim that
it stays absent from kept. -/
theorem filter_then_add_revives_key :
    addMoleculeCR (filterMoleculeCR c5S0 c5M) c5M =
      some ⟨[(7, c5M)], [(7, c5M)]⟩ ∧
    lookupA (⟨[(7, c5M)], [(7, c5M)]⟩ : CRState).molecules 7 = some c5M :=
  ⟨rfl, rfl⟩

/-- C5 (amended): for any deduplicator state with unique kept keys,
`filter_molecule(m)` followed by `add_molecule(m)` re-inserts `m` into the
kept map under its canonical key (the re-add silently revives it), while
the rejected record persists untouched in `_filtered`. -/
theorem filter_then_add_state (s : CRState) (m : Molecule)
    (hnd : (s.molecules.map Prod.fst).Nodup) :
    ∃ s2, addMoleculeCR (filterMoleculeCR s m) m = some s2 ∧
      lookupA s2.molecules m.key = some m ∧
      lookupA s2.filtered m.key = some m := by
  have h1 : lookupA (filterMoleculeCR s m).molecules m.key = none :=
    lookupA_eraseP_self s.molecules m.key hnd
  have hforall := forall_ne_of_lookupA_eq_none _ _ h1
  refine ⟨{ molecules := (filterMoleculeCR s m).molecules ++ [(m.key, m)],
            filtered := (filterMoleculeCR s m).filtered }, ?_, ?_, ?_⟩
  · simp only [addMoleculeCR, h1]
  · exact lookupA_append_right _ _ _ hforall
  · exact lookupA_dictSet_self s.filtered m.key m

/-- Witness for C5 (amended) at the concrete state `c5S0`. -/
theorem filter_then_add_state_witness :
    ∃ s2, addMoleculeCR (filterMoleculeCR c5S0 c5M) c5M = some s2 ∧
      lookupA s2.molecules c5M.key = some c5M ∧
      lookupA s2.filtered c5M.key = some c5M :=
  filter_then_add_state c5S0 c5M (by decide)

/-! ## C8 and C10: Dataset.add_molecule -/

theorem lookupA_isSome_of_any {κ α : Type} [DecidableEq κ]
    {l : List (κ × α)} {k : κ}
    (h : l.any (fun p => decide (p.1 = k)) = true) : ∃ v, lookupA l k = some v := by
  cases hl : lookupA l k with
  | some v => exact ⟨v, rfl⟩
  | none =>
    obtain ⟨p, hp, hpk⟩ := List.any_eq_true.mp h
    exact absurd (of_decide_eq_true hpk) (forall_ne_of_lookupA_eq_none _ _ hl p hp)

theorem filterMoleculesDS_dataset (d : Dataset) (mols : List Nat) (name : String)
    (dsc prov : Nat) :
    (filterMoleculesDS d mols name dsc prov).dataset = d.dataset := by
  unfold filterMoleculesDS
  split <;> rfl

theorem filterMoleculesDS_records (d : Dataset) (mols : List Nat) (name : String)
    (dsc prov : Nat) :
    ∃ fe, lookupA (filterMoleculesDS d mols name dsc prov).filtered_molecules name
        = some fe ∧ ∀ x ∈ mols, x ∈ fe.molecules := by
  unfold filterMoleculesDS
  by_cases h : d.filtered_molecules.any (fun p => decide (p.1 = name)) = true
  · rw [if_pos h]
    obtain ⟨fe0, hfe0⟩ := lookupA_isSome_of_any h
    refine ⟨{ fe0 with molecules := fe0.molecules ++ mols }, ?_, ?_⟩
    · have hmod := lookupA_map_modify d.filtered_molecules name
        (fun fe => { fe with molecules := fe.molecules ++ mols })
      rw [hmod, hfe0]
      rfl
    · intro x hx
      exact List.mem_append_right _ hx
  · rw [if_neg h]
    refine ⟨⟨name, dsc, prov, mols⟩, ?_, fun x hx => hx⟩
    refine lookupA_append_right _ _ _ ?_
    intro p hp hk
    exact h (by simp only [List.any_eq_true]; exact ⟨p, hp, by simp [hk]⟩)

theorem mkDatasetEntry_ok (index : String) (m : Molecule) (ex : Nat) (kw : Keywords)
    (hvalid : m.schemaValid = true)
    (hcons : checkConstraints (kw.constraints.getD {}) m.perm.length = true) :
    mkDatasetEntry index m ex kw = .ok
      { index := index, molKey := m.key, perm := m.perm,
        initial_molecules :=
          (if m.confs.isEmpty then [List.replicate m.perm.length 0]
           else m.confs).map (fun c => ⟨c, ex⟩),
        dihedrals := [], constraints := kw.constraints.getD {},
        elems := m.elements } := by
  simp [mkDatasetEntry, hvalid, hcons]

/-- C8 (amended): `add_molecule` with an entry whose construction fails
qcschema validation inserts nothing and records the molecule in the filter
ledger under the stage name `"QCSchemaIssues"` without the error
propagating; with a successfully constructed entry it stores the entry
under the given index and unions the molecule's element symbols into the
dataset-level metadata. -/
theorem add_molecule_schema_routing (st : Store) (d : Dataset) (idx : String)
    (m : Molecule) (ex : Nat) (kw : Keywords) :
    (m.schemaValid = false →
      addMoleculeDS st d idx m ex kw =
        (st, .ok (filterMoleculesDS d [m.key] "QCSchemaIssues" 0 d.provenance)) ∧
      (filterMoleculesDS d [m.key] "QCSchemaIssues" 0 d.provenance).dataset
        = d.dataset ∧
      ∃ fe, lookupA (filterMoleculesDS d [m.key] "QCSchemaIssues" 0
          d.provenance).filtered_molecules "QCSchemaIssues" = some fe ∧
        m.key ∈ fe.molecules) ∧
    (m.schemaValid = true →
      checkConstraints (kw.constraints.getD {}) m.perm.length = true →
      ∃ e, mkDatasetEntry idx m ex kw = .ok e ∧
        addMoleculeDS st d idx m ex kw =
          (st ++ [e], .ok { d with dataset := dictSet d.dataset idx st.length,
                                   elements := elemUnion d.elements e.elems }) ∧
        lookupA (dictSet d.dataset idx st.length) idx = some st.length ∧
        (∀ x ∈ e.elems, x ∈ elemUnion d.elements e.elems) ∧
        (∀ x ∈ d.elements, x ∈ elemUnion d.elements e.elems)) := by
  constructor
  · intro hbad
    have hmk : mkDatasetEntry idx m ex kw = .error .validationError := by
      simp [mkDatasetEntry, hbad]
    refine ⟨?_, filterMoleculesDS_dataset _ _ _ _ _, ?_⟩
    · simp [addMoleculeDS, hmk]
    · obtain ⟨fe, hfe, hmols⟩ := filterMoleculesDS_records d [m.key] "QCSchemaIssues" 0 d.provenance
      exact ⟨fe, hfe, hmols m.key (List.mem_singleton.mpr rfl)⟩
  · intro hvalid hcons
    refine ⟨_, mkDatasetEntry_ok idx m ex kw hvalid hcons, ?_, ?_, ?_, ?_⟩
    · simp [addMoleculeDS, mkDatasetEntry_ok idx m ex kw hvalid hcons]
    · exact lookupA_dictSet_self _ _ _
    · intro x hx
      exact mem_elemUnion.mpr (Or.inr hx)
    · intro x hx
      exact mem_elemUnion.mpr (Or.inl hx)

/-- A schema-invalid molecule (key 9) for the C8 input. -/
def c8BadM : Molecule := ⟨9, [0], [[1]], none, false, [6]⟩

/-- A schema-valid molecule (key 3) for the C8/C10 inputs. -/
def c8GoodM : Molecule := ⟨3, [0], [[1]], none, true, [6]⟩

/-- An empty plain dataset for the C8 input. -/
def c8D : Dataset := ⟨"DataSet", [], 0, [], []⟩

/-- C8 counterexample: at the schema-invalid input the recorded stage name
is `"QCSchemaIssues"`; no record exists under the claimed name
`"SchemaIssues"`. -/
theorem schema_failure_stage_name :
    addMoleculeDS [] c8D "idx" c8BadM 0 {} =
      ([], .ok ⟨"DataSet", [], 0, [],
        [("QCSchemaIssues", ⟨"QCSchemaIssues", 0, 0, [9]⟩)]⟩) ∧
    lookupA ([("QCSchemaIssues", (⟨"QCSchemaIssues", 0, 0, [9]⟩ : FilterEntry))])
      "SchemaIssues" = none := ⟨rfl, rfl⟩

/-- Witness for C8 (amended), exercising both the schema-failure branch (at
`c8BadM`) and the success branch (at `c8GoodM`). -/
theorem add_molecule_schema_routing_witness :
    (addMoleculeDS [] c8D "idx" c8BadM 0 {} =
      ([], .ok (filterMoleculesDS c8D [c8BadM.key] "QCSchemaIssues" 0
        c8D.provenance)) ∧
     ∃ fe, lookupA (filterMoleculesDS c8D [c8BadM.key] "QCSchemaIssues" 0
         c8D.provenance).filtered_molecules "QCSchemaIssues" = some fe ∧
       c8BadM.key ∈ fe.molecules) ∧
    (∃ e, mkDatasetEntry "g" c8GoodM 0 {} = .ok e ∧
      addMoleculeDS [] c8D "g" c8GoodM 0 {} =
        ([] ++ [e], .ok { c8D with dataset := dictSet c8D.dataset "g" 0,
                                   elements := elemUnion c8D.elements e.elems })) := by
  have h1 := (add_molecule_schema_routing [] c8D "idx" c8BadM 0 {}).1 rfl
  have h2 := (add_molecule_schema_routing [] c8D "g" c8GoodM 0 {}).2 rfl (by decide)
  obtain ⟨e, hmk, hadd, _⟩ := h2
  exact ⟨⟨h1.1, h1.2.2⟩, ⟨e, hmk, hadd⟩⟩

/-- A plain dataset with an existing entry under index `"i"` for the C10
input. -/
def c10D : Dataset := ⟨"DataSet", [], 0, [("i", 5)], []⟩

/-- C10: a successful `add_molecule` under an index that already exists
silently replaces the existing entry: the new entry construction succeeds,
the result stores the fresh entry reference under the same key (so the
prior entry's geometries are no longer reachable from the dataset), the
entry count is unchanged, entries under other keys are untouched, and no
filter record is written. -/
theorem add_molecule_overwrites_existing_index (st : Store) (d : Dataset)
    (idx : String) (m : Molecule) (ex : Nat) (kw : Keywords)
    (hmem : d.dataset.any (fun p => decide (p.1 = idx)) = true)
    (hvalid : m.schemaValid = true)
    (hcons : checkConstraints (kw.constraints.getD {}) m.perm.length = true) :
    ∃ e, mkDatasetEntry idx m ex kw = .ok e ∧
      addMoleculeDS st d idx m ex kw =
        (st ++ [e], .ok { d with dataset := dictSet d.dataset idx st.length,
                                 elements := elemUnion d.elements e.elems }) ∧
      (dictSet d.dataset idx st.length).length = d.dataset.length ∧
      lookupA (dictSet d.dataset idx st.length) idx = some st.length ∧
      getE (st ++ [e]) st.length = e ∧
      (∀ p ∈ d.dataset, p.1 ≠ idx → p ∈ dictSet d.dataset idx st.length) ∧
      ({ d with dataset := dictSet d.dataset idx st.length,
                elements := elemUnion d.elements e.elems } : Dataset).filtered_molecules
        = d.filtered_molecules := by
  refine ⟨_, mkDatasetEntry_ok idx m ex kw hvalid hcons, ?_, ?_, ?_, ?_, ?_, rfl⟩
  · simp [addMoleculeDS, mkDatasetEntry_ok idx m ex kw hvalid hcons]
  · exact dictSet_length_of_any _ _ _ hmem
  · exact lookupA_dictSet_self _ _ _
  · show (st ++ [_]).getD st.length default = _
    rw [List.getD_append_right st _ default st.length (le_refl _)]
    simp
  · intro p hp hne
    exact mem_dictSet_of_ne _ _ _ hp hne

/-- Witness for C10 at a concrete dataset with an existing index `"i"`. -/
theorem add_molecule_overwrites_existing_index_witness :
    (dictSet c10D.dataset "i" 0).length = c10D.dataset.length ∧
    lookupA (dictSet c10D.dataset "i" 0) "i" = some 0 ∧
    ({ c10D with dataset := dictSet c10D.dataset "i" 0,
                 elements := elemUnion c10D.elements [6] } : Dataset).filtered_molecules
      = c10D.filtered_molecules := by
  obtain ⟨e, hmk, hadd, hlen, hlook, hget, hmem, hfil⟩ :=
    add_molecule_overwrites_existing_index [] c10D "i" c8GoodM 0 {}
      (by decide) rfl (by decide)
  have helems : e.elems = [6] := by
    rw [mkDatasetEntry_ok "i" c8GoodM 0 {} rfl (by decide)] at hmk
    cases hmk
    rfl
  rw [helems] at hfil
  exact ⟨hlen, hlook, hfil⟩

/-! ## C6: conformer fusion in the deduplicator -/

/-- C6: when the incoming molecule's canonical key is already kept,
`ComponentResult.add_molecule` transfers conformers by remapping each one
through the isomorphism mapping and appending it exactly when no equal
conformer is already present (checked against the evolving list); the new
kept conformer list is the old list extended by the genuinely new
conformers, its members are exactly the old members plus the remapped
incoming ones, and its length grows by exactly the number of genuinely new
conformers. -/
theorem add_molecule_conformer_dedup (s : CRState) (m kept : Molecule)
    (hk : lookupA s.molecules m.key = some kept)
    (hlen : m.perm.length = kept.perm.length) :
    ∃ mrg, addMoleculeCR s m =
        some { s with molecules := dictSet s.molecules m.key mrg } ∧
      lookupA (dictSet s.molecules m.key mrg) m.key = some mrg ∧
      mrg.confs = dedupAppendConfs kept.confs
        (m.confs.map (remapConfCR (alignMap m kept))) ∧
      mrg.confs = kept.confs ++ genuinelyNew kept.confs
        (m.confs.map (remapConfCR (alignMap m kept))) ∧
      (∀ c : Conf, c ∈ mrg.confs ↔
        c ∈ kept.confs ∨ c ∈ m.confs.map (remapConfCR (alignMap m kept))) ∧
      mrg.confs.length = kept.confs.length + (genuinelyNew kept.confs
        (m.confs.map (remapConfCR (alignMap m kept)))).length := by
  cases hdi : m.dihedrals with
  | none =>
    refine ⟨{ kept with confs := (dedupAppendConfs kept.confs
        (m.confs.map (remapConfCR (alignMap m kept)))) },
      ?_, lookupA_dictSet_self _ _ _, rfl, ?_, ?_, ?_⟩
    · simp only [addMoleculeCR, hk, hdi, hlen, if_true, if_pos]
    · exact dedupAppendConfs_eq_append _ _
    · intro c
      exact mem_dedupAppendConfs _ _
    · rw [dedupAppendConfs_eq_append]
      exact List.length_append _ _
  | some di =>
    refine ⟨{ kept with
        dihedrals := some (tiUpdate (kept.dihedrals.getD []) di (alignMap m kept)),
        confs := (dedupAppendConfs kept.confs
          (m.confs.map (remapConfCR (alignMap m kept)))) },
      ?_, lookupA_dictSet_self _ _ _, rfl, ?_, ?_, ?_⟩
    · simp only [addMoleculeCR, hk, hdi, hlen, if_true, if_pos]
    · exact dedupAppendConfs_eq_append _ _
    · intro c
      exact mem_dedupAppendConfs _ _
    · rw [dedupAppendConfs_eq_append]
      exact List.length_append _ _

/-- The kept molecule (key 5, one conformer) of the C6 witness input. -/
def c6Kept : Molecule := ⟨5, [0], [[1]], none, true, []⟩

/-- The incoming duplicate (same key, conformers `[1]` and `[2]`) of the
C6 witness input. -/
def c6M : Molecule := ⟨5, [0], [[1], [2]], none, true, []⟩

/-- A deduplicator state keeping `c6Kept`. -/
def c6S : CRState := ⟨[(5, c6Kept)], []⟩

/-- Witness for C6 at the concrete duplicate input. -/
theorem add_molecule_conformer_dedup_witness :
    ∃ mrg, addMoleculeCR c6S c6M =
        some { c6S with molecules := dictSet c6S.molecules c6M.key mrg } ∧
      lookupA (dictSet c6S.molecules c6M.key mrg) c6M.key = some mrg ∧
      mrg.confs = dedupAppendConfs c6Kept.confs
        (c6M.confs.map (remapConfCR (alignMap c6M c6Kept))) ∧
      mrg.confs = c6Kept.confs ++ genuinelyNew c6Kept.confs
        (c6M.confs.map (remapConfCR (alignMap c6M c6Kept))) ∧
      (∀ c : Conf, c ∈ mrg.confs ↔
        c ∈ c6Kept.confs ∨ c ∈ c6M.confs.map (remapConfCR (alignMap c6M c6Kept))) ∧
      mrg.confs.length = c6Kept.confs.length + (genuinelyNew c6Kept.confs
        (c6M.confs.map (remapConfCR (alignMap c6M c6Kept)))).length :=
  add_molecule_conformer_dedup c6S c6M c6Kept rfl rfl

/-! ## C3: the dihedral-aware merge policy -/

/-- The fuse condition of the torsiondrive candidate scan, per candidate
index: the candidate exists and its own bidirectional central-bond set is
contained in the incoming entry's remapped bidirectional central-bond set
(`current_dihedrals - other_dihedrals` empty). -/
def torsMatches (st : Store) (nd : Dataset) (e : DsEntry) (molId : String) : Bool :=
  match lookupRef nd molId with
  | none => false
  | some cr =>
    (centralBonds (getE st cr).dihedrals).all
      (fun b => decide (b ∈ centralBondsMapped e.dihedrals
        (alignMap e.offMolecule (getE st cr).offMolecule)))

theorem torsScan_eq_find (st : Store) (nd : Dataset) (e : DsEntry) :
    ∀ (hits : List String),
      (∀ molId ∈ hits, (lookupRef nd molId).isSome) →
      torsScan st nd e hits =
        .ok ((hits.find? (torsMatches st nd e)).bind (lookupRef nd))
  | [], _ => rfl
  | molId :: rest, h => by
    obtain ⟨cr, hcr⟩ := Option.isSome_iff_exists.mp (h molId (List.mem_cons_self _ _))
    have hmatch : torsMatches st nd e molId =
        (centralBonds (getE st cr).dihedrals).all
          (fun b => decide (b ∈ centralBondsMapped e.dihedrals
            (alignMap e.offMolecule (getE st cr).offMolecule))) := by
      unfold torsMatches
      rw [hcr]
    cases hb : (centralBonds (getE st cr).dihedrals).all
        (fun b => decide (b ∈ centralBondsMapped e.dihedrals
          (alignMap e.offMolecule (getE st cr).offMolecule))) with
    | true =>
      simp only [torsScan, hcr]
      rw [if_pos hb, List.find?_cons_of_pos _ (by rw [hmatch]; exact hb)]
      simp [hcr]
    | false =>
      simp only [torsScan, hcr]
      rw [if_neg (by simp [hb]),
        List.find?_cons_of_neg _ (by rw [hmatch]; simp [hb]),
        torsScan_eq_find st nd e rest (fun i hi => h i (List.mem_cons_of_mem _ hi))]

/-- C3 (amended): in the dihedral-aware merge, an incoming entry's
geometries are fused into a candidate exactly when the candidate entry's
own bidirectional central-bond set is a subset of the incoming entry's
remapped bidirectional central-bond set (the reverse inclusion of the
claim); fusion targets the first such candidate and scanning stops there;
when no candidate matches, the incoming entry is inserted by reference
under its original dict index. -/
theorem tors_merge_step_characterization (st : Store) (nd : Dataset)
    (k : String) (r : Nat)
    (h : ∀ molId ∈ getMoleculeEntry st nd (getE st r).offMolecule,
      (lookupRef nd molId).isSome) :
    (∀ molId, (getMoleculeEntry st nd (getE st r).offMolecule).find?
        (torsMatches st nd (getE st r)) = some molId →
      ∃ cr, lookupRef nd molId = some cr ∧
        torsStep st nd (k, r) = (fuseInto st cr (getE st r), .ok nd)) ∧
    ((getMoleculeEntry st nd (getE st r).offMolecule).find?
        (torsMatches st nd (getE st r)) = none →
      torsStep st nd (k, r) = (st, .ok { nd with dataset := dictSet nd.dataset k r })) := by
  have hscan := torsScan_eq_find st nd (getE st r) _ h
  constructor
  · intro molId hfind
    have hmem : molId ∈ getMoleculeEntry st nd (getE st r).offMolecule :=
      List.mem_of_find?_eq_some hfind
    obtain ⟨cr, hcr⟩ := Option.isSome_iff_exists.mp (h molId hmem)
    refine ⟨cr, hcr, ?_⟩
    simp only [torsStep]
    rw [hscan, hfind]
    simp [hcr]
  · intro hnone
    simp only [torsStep]
    rw [hscan, hnone]
    rfl

/-- Existing torsiondrive entry scanning two central bonds (1–2 and 3–4). -/
def c3X : DsEntry :=
  ⟨"X", 1, [0, 1, 2, 3, 4, 5], [⟨[1, 1, 1, 1, 1, 1], 0⟩],
   [(0, 1, 2, 3), (2, 3, 4, 5)], {}, [6]⟩

/-- Incoming torsiondrive entry scanning only the central bond 1–2 of the
same molecule: its central-bond set is a strict subset of `c3X`'s. -/
def c3Y : DsEntry :=
  ⟨"Y", 1, [0, 1, 2, 3, 4, 5], [⟨[2, 2, 2, 2, 2, 2], 0⟩],
   [(0, 1, 2, 3)], {}, [6]⟩

/-- Store of the C3 failing input. -/
def c3St : Store := [c3X, c3Y]

/-- `self` of the C3 failing input. -/
def c3D : Dataset := ⟨"TorsiondriveDataset", [6], 0, [("X", 0)], []⟩

/-- `other` of the C3 failing input. -/
def c3Inc : Dataset := ⟨"TorsiondriveDataset", [6], 0, [("Y", 1)], []⟩

/-- `self + other` of the C3 failing input. -/
def c3Run : Store × Except MergeErr Dataset := addTors c3St c3D c3Inc

/-- C3 counterexample: the incoming entry's remapped central-bond set is a
subset of the existing candidate's, which by the claim should fuse the
incoming geometry into `X`; the code instead leaves `X` at one geometry and
inserts `Y` as a new entry, because its subset test runs in the opposite
direction (`current_dihedrals - other_dihedrals`). -/
theorem tors_incoming_subset_not_fused :
    ((centralBondsMapped c3Y.dihedrals (alignMap c3Y.offMolecule c3X.offMolecule)).all
      (fun b => decide (b ∈ centralBonds c3X.dihedrals)) = true) ∧
    c3Run.2.toOption.map (entryGeomCounts c3Run.1) = some [("X", 1), ("Y", 1)] :=
  ⟨rfl, rfl⟩

/-- Existing torsiondrive entry scanning one central bond, for the C3
witness (the existing set is contained in the incoming one, so this input
fuses). -/
def c3W : DsEntry :=
  ⟨"W", 1, [0, 1, 2, 3, 4, 5], [⟨[1, 1, 1, 1, 1, 1], 0⟩],
   [(0, 1, 2, 3)], {}, [6]⟩

/-- Incoming torsiondrive entry scanning two central bonds of the same
molecule, for the C3 witness. -/
def c3V : DsEntry :=
  ⟨"V", 1, [0, 1, 2, 3, 4, 5], [⟨[2, 2, 2, 2, 2, 2], 0⟩],
   [(0, 1, 2, 3), (2, 3, 4, 5)], {}, [6]⟩

/-- Store of the C3 witness input. -/
def c3WSt : Store := [c3W, c3V]

/-- Dataset of the C3 witness input (holding `c3W`). -/
def c3WD : Dataset := ⟨"TorsiondriveDataset", [6], 0, [("W", 0)], []⟩

/-- Witness for C3 (amended) at a concrete fusing input. -/
theorem tors_merge_step_characterization_witness :
    ∃ cr, lookupRef c3WD "W" = some cr ∧
      torsStep c3WSt c3WD ("V", 1) = (fuseInto c3WSt cr (getE c3WSt 1), .ok c3WD) :=
  (tors_merge_step_characterization c3WSt c3WD "V" 1 (by decide)).1 "W" (by decide)

/-! ## C4: the constraint-aware merge policy -/

/-- The fuse condition of the optimisation candidate scan, per candidate
index: the candidate exists and its constraints equal the incoming entry's
constraints remapped through that candidate's alignment. -/
def optMatches (st : Store) (nd : Dataset) (e : DsEntry) (molId : String) : Bool :=
  match lookupRef nd molId with
  | none => false
  | some cr =>
    decide ((getE st cr).constraints =
      remapConstraints e.constraints (alignMap e.offMolecule (getE st cr).offMolecule))

/-- The total geometry count stored under a list of candidate indices (the
final value of the `records` accumulator when no candidate matches). -/
def hitsGeomSum (st : Store) (nd : Dataset) (hits : List String) : Nat :=
  (hits.map (fun molId => ((lookupRef nd molId).map
    (fun cr => (getE st cr).initial_molecules.length)).getD 0)).sum

theorem optScan_eq_find (st : Store) (nd : Dataset) (e : DsEntry) :
    ∀ (hits : List String) (records : Nat),
      (∀ molId ∈ hits, (lookupRef nd molId).isSome) →
      optScan st nd e hits records =
        .ok (match hits.find? (optMatches st nd e) with
          | some molId => .inl ((lookupRef nd molId).getD 0)
          | none => .inr (records + hitsGeomSum st nd hits))
  | [], records, _ => by simp [optScan, hitsGeomSum]
  | molId :: rest, records, h => by
    obtain ⟨cr, hcr⟩ := Option.isSome_iff_exists.mp (h molId (List.mem_cons_self _ _))
    have hmatch : optMatches st nd e molId =
        decide ((getE st cr).constraints =
          remapConstraints e.constraints
            (alignMap e.offMolecule (getE st cr).offMolecule)) := by
      unfold optMatches
      rw [hcr]
    have hsum : hitsGeomSum st nd (molId :: rest) =
        (getE st cr).initial_molecules.length + hitsGeomSum st nd rest := by
      simp [hitsGeomSum, hcr]
    by_cases hb : (getE st cr).constraints =
        remapConstraints e.constraints (alignMap e.offMolecule (getE st cr).offMolecule)
    · simp only [optScan, hcr]
      rw [if_pos hb, List.find?_cons_of_pos _ (by rw [hmatch]; exact decide_eq_true hb)]
      simp [hcr]
    · simp only [optScan, hcr]
      rw [if_neg hb,
        List.find?_cons_of_neg _ (by rw [hmatch]; simpa using hb),
        optScan_eq_find st nd e rest (records + (getE st cr).initial_molecules.length)
          (fun i hi => h i (List.mem_cons_of_mem _ hi))]
      cases hf : rest.find? (optMatches st nd e) with
      | some mid => rfl
      | none =>
        rw [hsum, ← Nat.add_assoc]

/-- C4: in the constraint-aware merge, an incoming entry with isomorphic
candidates is fused exactly into the first candidate whose constraints
equal the incoming entry's constraints remapped through that candidate's
alignment; when no candidate's remapped ConstraintSet is equal, the
incoming entry is kept as a separate entry, re-indexed (in place) to the
original index root plus a numeric suffix offset by the total geometry
count stored under the matching candidates, and inserted under that
disambiguated index; with no isomorphic candidate at all it is inserted
under its own index unchanged. -/
theorem opt_merge_step_characterization (st : Store) (nd : Dataset)
    (k : String) (r : Nat)
    (h : ∀ molId ∈ getMoleculeEntry st nd (getE st r).offMolecule,
      (lookupRef nd molId).isSome) :
    (∀ molId, (getMoleculeEntry st nd (getE st r).offMolecule).find?
        (optMatches st nd (getE st r)) = some molId →
      ∃ cr, lookupRef nd molId = some cr ∧
        (getE st cr).constraints = remapConstraints (getE st r).constraints
          (alignMap (getE st r).offMolecule (getE st cr).offMolecule) ∧
        optStep st nd (k, r) = (fuseInto st cr (getE st r), .ok nd)) ∧
    (getMoleculeEntry st nd (getE st r).offMolecule ≠ [] →
      (getMoleculeEntry st nd (getE st r).offMolecule).find?
        (optMatches st nd (getE st r)) = none →
      optStep st nd (k, r) =
        (setE st r { getE st r with index := ((cleanIndex (getE st r).index).1 ++
            "-" ++ toString ((cleanIndex (getE st r).index).2 +
                hitsGeomSum st nd (getMoleculeEntry st nd (getE st r).offMolecule))) },
         .ok { nd with dataset := (dictSet nd.dataset
            ((cleanIndex (getE st r).index).1 ++ "-" ++
              toString ((cleanIndex (getE st r).index).2 +
                hitsGeomSum st nd (getMoleculeEntry st nd (getE st r).offMolecule))) r) })) ∧
    (getMoleculeEntry st nd (getE st r).offMolecule = [] →
      optStep st nd (k, r) =
        (st, .ok { nd with dataset := dictSet nd.dataset (getE st r).index r })) := by
  refine ⟨?_, ?_, ?_⟩
  · intro molId hfind
    have hmem : molId ∈ getMoleculeEntry st nd (getE st r).offMolecule :=
      List.mem_of_find?_eq_some hfind
    obtain ⟨cr, hcr⟩ := Option.isSome_iff_exists.mp (h molId hmem)
    have heq : (getE st cr).constraints = remapConstraints (getE st r).constraints
        (alignMap (getE st r).offMolecule (getE st cr).offMolecule) := by
      have hm := List.find?_some hfind
      unfold optMatches at hm
      rw [hcr] at hm
      exact of_decide_eq_true hm
    refine ⟨cr, hcr, heq, ?_⟩
    cases hh : getMoleculeEntry st nd (getE st r).offMolecule with
    | nil => rw [hh] at hfind; exact absurd hfind (by simp)
    | cons a rest =>
      have hAll : ∀ molId ∈ a :: rest, (lookupRef nd molId).isSome := by
        rw [← hh]; exact h
      have hscan := optScan_eq_find st nd (getE st r) (a :: rest) 0 hAll
      have hfind2 : (a :: rest).find? (optMatches st nd (getE st r)) = some molId := by
        rw [← hh]; exact hfind
      simp only [optStep, hh, hscan, hfind2]
      simp [hcr]
  · intro hne hnone
    cases hh : getMoleculeEntry st nd (getE st r).offMolecule with
    | nil => exact absurd hh hne
    | cons a rest =>
      have hAll : ∀ molId ∈ a :: rest, (lookupRef nd molId).isSome := by
        rw [← hh]; exact h
      have hscan := optScan_eq_find st nd (getE st r) (a :: rest) 0 hAll
      have hnone2 : (a :: rest).find? (optMatches st nd (getE st r)) = none := by
        rw [← hh]; exact hnone
      simp only [optStep, hh, hscan, hnone2, Nat.zero_add]
  · intro hemp
    simp only [optStep, hemp]

/-- Witness for C4 at a concrete input with an isomorphic candidate whose
ConstraintSet differs: the incoming entry is re-indexed `Q-0 ↦ Q-1`
(offset 1 = the single geometry stored under the matching candidate) and
inserted under the disambiguated index. -/
theorem opt_merge_step_characterization_witness :
    optStep c2St c2D ("Q-0", 1) =
      (setE c2St 1 { getE c2St 1 with index := ((cleanIndex (getE c2St 1).index).1 ++
          "-" ++ toString ((cleanIndex (getE c2St 1).index).2 +
            hitsGeomSum c2St c2D (getMoleculeEntry c2St c2D (getE c2St 1).offMolecule))) },
       .ok { c2D with dataset := (dictSet c2D.dataset
          ((cleanIndex (getE c2St 1).index).1 ++ "-" ++
            toString ((cleanIndex (getE c2St 1).index).2 +
              hitsGeomSum c2St c2D (getMoleculeEntry c2St c2D (getE c2St 1).offMolecule))) 1) }) :=
  (opt_merge_step_characterization c2St c2D "Q-0" 1 (by decide)).2.1
    (by decide) (by decide)
